import Mathlib
set_option maxRecDepth 10000
set_option maxHeartbeats 2000000

/-!
Verification of the `cybersyn` economic-planning repository
(`src/cybersyn/economy.py`, `src/cybersyn/optimize.py`).

The Python code is shallowly embedded:

* numpy vectors and matrices over floats become `List ℚ` and `List (List ℚ)`;
* the pydantic `Economy` model becomes a structure whose validation
  (`equal_shapes`, `equal_periods`, `model_post_init`) is the function
  `validateEconomy`;
* the cvxpy decision variables `activity[t]` / `total_import[t]` become an
  abstract assignment `Assign`; cvxpy expressions become closures over an
  assignment, and each constraint becomes a boolean-valued closure;
* the external solver is an oracle mapping each window start to a solve
  result (`optimal` with an assignment of all variables, `infeasible`, or
  `unbounded`), per the spec's solver interface;
* Python exceptions become an error type threaded through `Except` /
  `Option`; Python list indexing is `pyGet` (raising `indexError`), and
  pydantic attribute lookup of an undefined field raises `attributeError`.

The constraint-building code of `optimize.py` reads
`economy.target_domestic / target_export / target_import`, which are not
fields of the validated model (it defines `final_*`); this is modelled
faithfully by `realTargetsSrc` (attribute error).  So that the rolling
horizon controller can also be analysed past that error, a second target
source `modelledTargetsSrc` supplies the three series from a `Targets`
record modelled from the spec.
-/

namespace Cybersyn

/-! ### Vectors, matrices and their numpy-style operations -/

abbrev Vec := List ℚ
abbrev Mat := List (List ℚ)

/-- Dot product of two vectors (numpy `@` on 1-D arrays). -/
def dotV (a b : Vec) : ℚ := (List.zipWith (· * ·) a b).sum

/-- Matrix-vector product (numpy `@`). -/
def matVec (M : Mat) (v : Vec) : Vec := M.map (fun row => dotV row v)

/-- Componentwise vector addition. -/
def vAdd (a b : Vec) : Vec := List.zipWith (· + ·) a b

/-- Componentwise vector subtraction. -/
def vSub (a b : Vec) : Vec := List.zipWith (· - ·) a b

/-- Componentwise vector product (cvxpy `multiply`). -/
def vHad (a b : Vec) : Vec := List.zipWith (· * ·) a b

/-- Componentwise matrix subtraction. -/
def matSub (A B : Mat) : Mat := List.zipWith vSub A B

/-- Every component nonnegative (a cvxpy vector constraint `expr >= 0`). -/
def vNonneg (v : Vec) : Bool := v.all (fun x => decide (0 ≤ x))

/-- Componentwise `≤` between two vectors of equal length. -/
def vLe (a b : Vec) : Bool := (List.zipWith (fun x y => decide (x ≤ y)) a b).all id

/-- numpy 2-D shape `(rows, cols)`. -/
def matShape (M : Mat) : Nat × Nat := (M.length, M.headI.length)

/-! ### The validated `Economy` model (`economy.py`) -/

/-- The pydantic model `Economy` of `economy.py`: ten per-period series plus
the two name lists.  The four supply-use style series hold matrices; the six
others hold vectors (their validated shapes). -/
structure Economy where
  supply : List Mat
  use_domestic : List Mat
  use_import : List Mat
  depreciation : List Mat
  final_domestic : List Vec
  final_export : List Vec
  final_import : List Vec
  prices_import : List Vec
  prices_export : List Vec
  worked_hours : List Vec
  product_names : List String
  sector_names : List String
deriving DecidableEq

/-- Property `Economy.products`: row count of `supply[0]`. -/
def Economy.products (e : Economy) : Nat := e.supply.headI.length

/-- Property `Economy.sectors`: column count of `supply[0]`. -/
def Economy.sectors (e : Economy) : Nat := e.supply.headI.headI.length

/-- The field names of the pydantic `Economy` model, in declaration order.
Attribute access on any other name raises `AttributeError`. -/
def Economy.modelFields : List String :=
  ["supply", "use_domestic", "use_import", "depreciation", "final_domestic",
   "final_export", "final_import", "prices_import", "prices_export",
   "worked_hours", "product_names", "sector_names"]

/-- Errors of the embedded Python code.  `shapesNotEqual` is
`ShapesNotEqualError`, `shapeError` is `ShapeError`, the two name errors are
the `ValueError`s of `model_post_init`, `errorRevisePeriods` is
`ErrorRevisePeriods`, `errorPeriods` is `ErrorPeriods`, and
`infeasibleProblem` is `InfeasibleProblem` of `optimize.py`. -/
inductive Err where
  | shapesNotEqual (field : String)
  | periodsMismatch (field : String)
  | shapeError
  | productNamesLength
  | sectorNamesLength
  | attributeError (name : String)
  | indexError
  | zeroDivision
  | errorRevisePeriods
  | errorPeriods
  | infeasibleProblem (period : Nat)
deriving DecidableEq

/-- Validator `equal_shapes` on a matrix-valued series: all shapes equal the
first one. -/
def matSeriesShapesOk (ms : List Mat) : Bool :=
  (ms.map matShape).all (fun s => s = (ms.map matShape).headI)

/-- Validator `equal_shapes` on a vector-valued series. -/
def vecSeriesShapesOk (vs : List Vec) : Bool :=
  (vs.map List.length).all (fun s => s = (vs.map List.length).headI)

/-- The two pydantic field validators (`equal_shapes`, then `equal_periods`
against `supply`) applied to one matrix-valued field. -/
def matFieldCheck (name : String) (supplyLen : Nat) (ms : List Mat) : Option Err :=
  if ¬ matSeriesShapesOk ms then some (.shapesNotEqual name)
  else if ms.length ≠ supplyLen then some (.periodsMismatch name)
  else none

/-- The two pydantic field validators applied to one vector-valued field. -/
def vecFieldCheck (name : String) (supplyLen : Nat) (vs : List Vec) : Option Err :=
  if ¬ vecSeriesShapesOk vs then some (.shapesNotEqual name)
  else if vs.length ≠ supplyLen then some (.periodsMismatch name)
  else none

/-- First error of a list of checks, mirroring pydantic running the field
validators in field-declaration order. -/
def firstErr : List (Option Err) → Option Err
  | [] => none
  | some e :: _ => some e
  | none :: rest => firstErr rest

/-- Embeds `Economy.model_post_init`: cross-field shape checks (accessing index 0 of
each series raises `IndexError` when the series is empty, as in Python), then
the two name-list checks.  The second name check tests
`len(product_names) != products` — exactly as the source does (the sector
branch of `model_post_init` re-checks the product names). -/
def modelPostInit (e : Economy) : Option Err :=
  match e.use_domestic.head?, e.use_import.head?, e.supply.head? with
  | some ud0, some ui0, some _ =>
    if matShape ud0 ≠ (e.products, e.sectors) then some .shapeError
    else if matShape ui0 ≠ (e.products, e.sectors) then some .shapeError
    else
      match e.depreciation.head? with
      | some dep0 =>
        if matShape dep0 ≠ (e.products, e.products) then some .shapeError
        else
          match e.final_domestic.head?, e.final_export.head?,
                e.prices_import.head?, e.prices_export.head? with
          | some fd0, some fe0, some pi0, some pe0 =>
            if fd0.length ≠ e.products then some .shapeError
            else if fe0.length ≠ e.products then some .shapeError
            else if pi0.length ≠ e.products then some .shapeError
            else if pe0.length ≠ e.products then some .shapeError
            else
              match e.worked_hours.head? with
              | some wh0 =>
                if wh0.length ≠ e.sectors then some .shapeError
                else if e.product_names.length ≠ e.products then some .productNamesLength
                else if e.product_names.length ≠ e.products then some .sectorNamesLength
                else none
              | none => some .indexError
          | _, _, _, _ => some .indexError
      | none => some .indexError
  | _, _, _ => some .indexError

/-- Full construction-time validation of an `Economy`: the per-field
validators in field order, then `model_post_init`.  Returns `none` when the
model is successfully constructed. -/
def validateEconomy (e : Economy) : Option Err :=
  match firstErr
    [ matFieldCheck ("supply") e.supply.length e.supply,
      matFieldCheck ("use_domestic") e.supply.length e.use_domestic,
      matFieldCheck ("use_import") e.supply.length e.use_import,
      matFieldCheck ("depreciation") e.supply.length e.depreciation,
      vecFieldCheck ("final_domestic") e.supply.length e.final_domestic,
      vecFieldCheck ("final_export") e.supply.length e.final_export,
      vecFieldCheck ("final_import") e.supply.length e.final_import,
      vecFieldCheck ("prices_import") e.supply.length e.prices_import,
      vecFieldCheck ("prices_export") e.supply.length e.prices_export,
      vecFieldCheck ("worked_hours") e.supply.length e.worked_hours ] with
  | some er => some er
  | none => modelPostInit e

/-- pydantic attribute lookup restricted to the vector-valued series: a name
that is not a model field raises `AttributeError`, exactly as `getattr` does
on a pydantic model. -/
def Economy.getVecSeries (e : Economy) (name : String) : Except Err (List Vec) :=
  if name = "final_domestic" then .ok e.final_domestic
  else if name = "final_export" then .ok e.final_export
  else if name = "final_import" then .ok e.final_import
  else if name = "prices_import" then .ok e.prices_import
  else if name = "prices_export" then .ok e.prices_export
  else if name = "worked_hours" then .ok e.worked_hours
  else .error (.attributeError name)

/-! ### Ecology and targets -/

/-- Modelled from the spec: `optimize.py` imports `Ecology` from
`cybersyn.ecology`, a module absent from the given source.  Per the spec's
external-interface section the ecology data is `pollutants[t]` and
`target_pollutants[t]` per period. -/
structure Ecology where
  pollutants : List Vec
  target_pollutants : List ℚ

/-- Modelled from the spec: the `target_domestic` / `target_export` /
`target_import` per-period series read by the constraint code of
`optimize.py` are not fields of the validated `Economy` model (which defines
`final_*`), and no module in the source defines them.  Following the spec's
ConstraintBuilder section they are modelled as three additional per-period
product-vector series. -/
structure Targets where
  target_domestic : List Vec
  target_export : List Vec
  target_import : List Vec

/-- How the optimizer obtains the three target series: each access is the
result of a pydantic attribute lookup and may fail. -/
structure TargetsSrc where
  dom : Except Err (List Vec)
  exp : Except Err (List Vec)
  imp : Except Err (List Vec)

/-- The target series exactly as the source code obtains them: attribute
lookups `economy.target_domestic` … on the pydantic model, which fail because
no such fields exist. -/
def realTargetsSrc (e : Economy) : TargetsSrc :=
  { dom := e.getVecSeries ("target_domestic")
    exp := e.getVecSeries ("target_export")
    imp := e.getVecSeries ("target_import") }

/-- Target series supplied from the spec-modelled `Targets` record. -/
def modelledTargetsSrc (tg : Targets) : TargetsSrc :=
  { dom := .ok tg.target_domestic
    exp := .ok tg.target_export
    imp := .ok tg.target_import }

/-! ### Decision variables, expressions, constraints -/

/-- Values of the decision variables: `act t` is `activity[t].value`,
`imp t` is `total_import[t].value`. -/
structure Assign where
  act : Nat → Vec
  imp : Nat → Vec

/-- A cvxpy vector expression: its value under an assignment. -/
abbrev VExpr := Assign → Vec

/-- A cvxpy scalar expression. -/
abbrev SExpr := Assign → ℚ

/-- A cvxpy constraint: whether it is satisfied by an assignment. -/
abbrev CExpr := Assign → Bool

/-- A solver call outcome, per the spec's external-solver interface:
`optimal` carries the values assigned to every variable of the problem. -/
inductive SolveResult where
  | optimal (σ : Assign)
  | infeasible
  | unbounded

/-- The external solver as an oracle indexed by the window's start period. -/
abbrev Oracle := Nat → SolveResult

/-- Python `xs[i]` (raises `IndexError` out of range). -/
def pyGet {α : Type} (xs : List α) (i : Nat) : Except Err α :=
  match xs.get? i with
  | some x => .ok x
  | none => .error .indexError

/-- Helper for `pyRange`: `stop - start` is enough fuel whenever
`step ≥ 1`. -/
def pyRangeAux : Nat → Nat → Nat → Nat → List Nat
  | 0, _, _, _ => []
  | fuel + 1, start, stop, step =>
    if start < stop then start :: pyRangeAux fuel (start + step) stop step else []

/-- Python `range(start, stop, step)` for positive `step`. -/
def pyRange (start stop step : Nat) : List Nat :=
  pyRangeAux (stop - start) start stop step

/-! ### The rolling-horizon controller (`optimize.py`) -/

/-- Embeds `OptimizePlan._validate_plan`, evaluated on Python integers (hence the
computation in `ℤ`): revise/horizon check, then the minimum-period check
`revise_periods * (ceil(periods / revise_periods) - 1) + horizon_periods`.
`revise_periods = 0` makes Python's `periods / revise_periods` raise
`ZeroDivisionError`. -/
def validatePlan (periods horizon_periods revise_periods : Nat) (e : Economy) : Option Err :=
  if revise_periods > horizon_periods then some .errorRevisePeriods
  else if revise_periods = 0 then some .zeroDivision
  else
    let min_iter : ℤ := ((periods : ℤ) + revise_periods - 1) / revise_periods
    let min_periods : ℤ := revise_periods * (min_iter - 1) + horizon_periods
    if min_periods > (e.supply.length : ℤ) then some .errorPeriods else none

/-- Embeds `OptimizePlan.__init__`: store the parameters and run `_validate_plan`.
The ecology argument is stored but not validated. -/
def construct (periods horizon_periods revise_periods : Nat) (e : Economy)
    (_eco : Option Ecology) : Except Err Unit :=
  match validatePlan periods horizon_periods revise_periods e with
  | some er => .error er
  | none => .ok ()

/-- Accumulators filled by `production_constraints`:
the constraint list and the `self.surplus` / `self.production` lists. -/
structure ProdAcc where
  constraints : List CExpr
  surplusAcc : List VExpr
  prodAcc : List VExpr

/-- One iteration of the loop of `OptimizePlan.production_constraints`:
build `supply_use`, `production` and the chained `surplus` expression for
period `t`.  Attribute/index accesses happen in source order; the three
target accesses are pydantic attribute lookups followed by indexing. -/
def prodStep (e : Economy) (ts : TargetsSrc) (t : Nat) (surplus : VExpr) :
    Except Err (VExpr × VExpr) := do
  let s ← pyGet e.supply t
  let ud ← pyGet e.use_domestic t
  let ui ← pyGet e.use_import t
  let dep ← pyGet e.depreciation t
  let tdS ← ts.dom
  let td ← pyGet tdS t
  let teS ← ts.exp
  let te ← pyGet teS t
  let tiS ← ts.imp
  let ti ← pyGet tiS t
  let supplyUse := matSub (matSub s ud) ui
  let production : VExpr := fun σ => matVec supplyUse (σ.act t)
  let surplusNew : VExpr := fun σ =>
    vSub (vSub (vSub (vAdd (vAdd (matVec dep (surplus σ)) (production σ)) (σ.imp t)) td) te) ti
  .ok (production, surplusNew)

/-- The loop of `production_constraints` over the horizon window: appends
`surplus >= 0` for every period, and records surplus and production in the
revised periods (`t <= period + revise_periods - 1 and t <= periods - 1`). -/
def prodLoop (e : Economy) (ts : TargetsSrc) (periods revise_periods period : Nat) :
    List Nat → VExpr → ProdAcc → Except Err ProdAcc
  | [], _, acc => .ok acc
  | t :: rest, surplus, acc => do
    let (production, surplusNew) ← prodStep e ts t surplus
    let c : CExpr := fun σ => vNonneg (surplusNew σ)
    let record := t ≤ period + revise_periods - 1 ∧ t ≤ periods - 1
    let acc' : ProdAcc :=
      { constraints := acc.constraints ++ [c]
        surplusAcc := if record then acc.surplusAcc ++ [surplusNew] else acc.surplusAcc
        prodAcc := if record then acc.prodAcc ++ [production] else acc.prodAcc }
    prodLoop e ts periods revise_periods period rest surplusNew acc'

/-- Embeds `OptimizePlan.production_constraints`. -/
def production_constraints (e : Economy) (ts : TargetsSrc)
    (periods horizon_periods revise_periods period : Nat) (surplus : Vec) :
    Except Err ProdAcc :=
  prodLoop e ts periods revise_periods period
    (pyRange period (period + horizon_periods) 1) (fun _ => surplus) ⟨[], [], []⟩

/-- The loop of `export_constraints` over the revise sub-window: chain the
running deficit and record it in the revised periods; returns the final
deficit expression and the recorded `self.export_deficit` entries. -/
def expLoop (e : Economy) (ts : TargetsSrc) (periods revise_periods period : Nat) :
    List Nat → SExpr → List SExpr → Except Err (SExpr × List SExpr)
  | [], d, acc => .ok (d, acc)
  | t :: rest, d, acc => do
    let pe ← pyGet e.prices_export t
    let teS ← ts.exp
    let te ← pyGet teS t
    let pimp ← pyGet e.prices_import t
    let d' : SExpr := fun σ => d σ + dotV pe te - dotV pimp (σ.imp t)
    let acc' := if t ≤ period + revise_periods - 1 ∧ t ≤ periods - 1 then acc ++ [d'] else acc
    expLoop e ts periods revise_periods period rest d' acc'

/-- Embeds `OptimizePlan.export_constraints`: a single constraint
`export_deficit >= 0` is appended after the loop, on the deficit accumulated
at the end of the revise sub-window. -/
def export_constraints (e : Economy) (ts : TargetsSrc)
    (periods revise_periods period : Nat) (export_deficit : ℚ) :
    Except Err (List CExpr × List SExpr) := do
  let (dEnd, acc) ← expLoop e ts periods revise_periods period
    (pyRange period (period + revise_periods) 1) (fun _ => export_deficit) []
  .ok ([fun σ => decide (0 ≤ dEnd σ)], acc)

/-- The final accumulated deficit expression of a window's
`export_constraints` (the expression the single `>= 0` constraint is imposed
on). -/
def exportDeficitEnd (e : Economy) (ts : TargetsSrc)
    (periods revise_periods period : Nat) (export_deficit : ℚ) : Except Err SExpr :=
  (expLoop e ts periods revise_periods period
    (pyRange period (period + revise_periods) 1) (fun _ => export_deficit) []).map
    Prod.fst

/-- The lower labor-reallocation constraint of period `t`:
`activity[t] >= multiply(realloc_low_limit, activity[t-1])`. -/
def laborLow (e : Economy) (t : Nat) : CExpr :=
  fun σ => vLe (vHad (List.replicate e.sectors (9/10 : ℚ)) (σ.act (t - 1))) (σ.act t)

/-- The upper labor-reallocation constraint of period `t`:
`activity[t] <= multiply(realloc_upper_limit, activity[t-1])`. -/
def laborUp (e : Economy) (t : Nat) : CExpr :=
  fun σ => vLe (σ.act t) (vHad (List.replicate e.sectors (11/10 : ℚ)) (σ.act (t - 1)))

/-- Embeds `OptimizePlan.labor_realloc_constraint`: for each period of the revise
sub-window except global period 0, activity is bounded within
`[0.9, 1.1]` componentwise of the previous period's activity. -/
def labor_realloc_constraint (e : Economy) (revise_periods period : Nat) : List CExpr :=
  (pyRange period (period + revise_periods) 1).foldl
    (fun acc t => if t = 0 then acc else acc ++ [laborLow e t, laborUp e t])
    []

/-- Embeds `OptimizePlan.pollutants_constraint`. -/
def pollutants_constraint (eco : Ecology) (revise_periods period : Nat) :
    Except Err (List CExpr) :=
  (pyRange period (period + revise_periods) 1).foldlM
    (fun acc t => do
      let pv ← pyGet eco.pollutants t
      let tp ← pyGet eco.target_pollutants t
      pure (acc ++ [fun σ => decide (dotV pv (σ.act t) ≤ tp)]))
    []

/-- The loop of `OptimizePlan.cost`: accumulate the objective and record the
worked-hours expression in the revised periods (`t <= period +
revise_periods - 1`, with no clamp at `periods`). -/
def costLoop (e : Economy) (revise_periods period : Nat) :
    List Nat → SExpr → List SExpr → Except Err (SExpr × List SExpr)
  | [], c, acc => .ok (c, acc)
  | t :: rest, c, acc => do
    let wh ← pyGet e.worked_hours t
    let pimp ← pyGet e.prices_import t
    let whE : SExpr := fun σ => dotV wh (σ.act t)
    let c' : SExpr := fun σ => c σ + whE σ + dotV pimp (σ.imp t)
    let acc' := if t ≤ period + revise_periods - 1 then acc ++ [whE] else acc
    costLoop e revise_periods period rest c' acc'

/-- Embeds `OptimizePlan.cost`. -/
def cost (e : Economy) (horizon_periods revise_periods period : Nat) :
    Except Err (SExpr × List SExpr) :=
  costLoop e revise_periods period (pyRange period (period + horizon_periods) 1)
    (fun _ => 0) []

/-- The pollutant constraints when an ecology is supplied
(`if self.ecology is not None`), nothing otherwise. -/
def ecoConstraints (eco : Option Ecology) (revise_periods period : Nat) :
    Except Err (List CExpr) :=
  match eco with
  | none => .ok []
  | some eco' => pollutants_constraint eco' revise_periods period

/-- Everything `optimize_period` builds before calling the solver, in source
order: production constraints, export constraints, labor constraints,
optional pollutant constraints, then the cost (whose evaluation records the
worked hours).  Returns the window's constraint list and the four
accumulator extensions. -/
def buildWindow (e : Economy) (ts : TargetsSrc) (eco : Option Ecology)
    (periods horizon_periods revise_periods period : Nat)
    (surplus : Vec) (export_deficit : ℚ) :
    Except Err (List CExpr × List VExpr × List VExpr × List SExpr × List SExpr) := do
  let pa ← production_constraints e ts periods horizon_periods revise_periods period surplus
  let (ec, dAcc) ← export_constraints e ts periods revise_periods period export_deficit
  let lc := labor_realloc_constraint e revise_periods period
  let pc ← ecoConstraints eco revise_periods period
  let (_, whAcc) ← cost e horizon_periods revise_periods period
  .ok (pa.constraints ++ ec ++ lc ++ pc, pa.surplusAcc, pa.prodAcc, dAcc, whAcc)

/-- The output record `PlannedEconomy` of `economy.py`. -/
structure PlannedEconomy where
  activity : List Vec := []
  production : List Vec := []
  surplus : List Vec := []
  total_import : List Vec := []
  export_deficit : List ℚ := []
  worked_hours : List ℚ := []
deriving DecidableEq

/-- The mutable state of an `OptimizePlan` instance during `__call__`: the
four expression accumulator lists, the committed plan, and two ghost trace
fields used only by the verification (they do not influence the
computation): `trace_commits` records `(window start, committed period)` for
every append to the plan, `trace_seeds` records the seed passed to each
window's solve, and `trace_sat` records, for each successful solve, whether
the assignment returned by the solver satisfies that window's constraint
list. -/
structure PlanState where
  production : List VExpr
  surplus : List VExpr
  export_deficit : List SExpr
  worked_hours : List SExpr
  planned : PlannedEconomy
  trace_commits : List (Nat × Nat)
  trace_seeds : List (Nat × Vec × ℚ)
  trace_sat : List Bool

def emptyState : PlanState :=
  ⟨[], [], [], [], {}, [], [], []⟩

/-- The loop body of `_save_plan_period` for one committed period `t`:
appends the six resolved values, evaluating the recorded expressions at the
assignment the solver returned for this window. -/
def saveStep (σ : Assign) (period t : Nat) (st : PlanState) : Except Err PlanState := do
  let st := { st with planned := { st.planned with
                activity := st.planned.activity ++ [σ.act t] } }
  let prodE ← pyGet st.production t
  let st := { st with planned := { st.planned with
                production := st.planned.production ++ [prodE σ] } }
  let surE ← pyGet st.surplus t
  let st := { st with planned := { st.planned with
                surplus := st.planned.surplus ++ [surE σ] } }
  let st := { st with planned := { st.planned with
                total_import := st.planned.total_import ++ [σ.imp t] } }
  let defE ← pyGet st.export_deficit t
  let st := { st with planned := { st.planned with
                export_deficit := st.planned.export_deficit ++ [defE σ] } }
  let whE ← pyGet st.worked_hours t
  let st := { st with planned := { st.planned with
                worked_hours := st.planned.worked_hours ++ [whE σ] } }
  let st := { st with trace_commits := st.trace_commits ++ [(period, t)] }
  .ok st

/-- The loop of `_save_plan_period` over
`range(min(revise_periods, periods - period))`. -/
def saveLoop (σ : Assign) (period : Nat) : List Nat → PlanState → Except Err PlanState
  | [], st => .ok st
  | extra :: rest, st => do
    let st' ← saveStep σ period (period + extra) st
    saveLoop σ period rest st'

/-- Embeds `OptimizePlan._save_plan_period`. -/
def save_plan_period (periods revise_periods period : Nat) (σ : Assign)
    (st : PlanState) : Except Err PlanState :=
  saveLoop σ period (pyRange 0 (min revise_periods (periods - period)) 1) st

/-- Embeds `OptimizePlan.optimize_period`: build the window's constraints and
objective, consult the solver, raise `InfeasibleProblem` on an infeasible or
unbounded status, otherwise commit the revise prefix of the window.  Returns
the updated state together with the raised error, if any. -/
def optimize_period (e : Economy) (ts : TargetsSrc) (eco : Option Ecology)
    (periods horizon_periods revise_periods : Nat) (res : SolveResult)
    (period : Nat) (surplus : Vec) (export_deficit : ℚ) (st : PlanState) :
    PlanState × Option Err :=
  let st := { st with trace_seeds := st.trace_seeds ++ [(period, surplus, export_deficit)] }
  match buildWindow e ts eco periods horizon_periods revise_periods period
      surplus export_deficit with
  | .error er => (st, some er)
  | .ok (cs, sAcc, pAcc, dAcc, whAcc) =>
    let st1 := { st with
      production := st.production ++ pAcc
      surplus := st.surplus ++ sAcc
      export_deficit := st.export_deficit ++ dAcc
      worked_hours := st.worked_hours ++ whAcc }
    match res with
    | .optimal σ =>
      let st1 := { st1 with trace_sat := st1.trace_sat ++ [cs.all (fun c => c σ)] }
      match save_plan_period periods revise_periods period σ st1 with
      | .ok st2 => (st2, none)
      | .error er => (st1, some er)
    | .infeasible => (st1, some (.infeasibleProblem period))
    | .unbounded => (st1, some (.infeasibleProblem period))

/-- The window starts of the revision loop of `__call__`:
`range(1, periods, revise_periods)`. -/
def windowStarts (periods revise_periods : Nat) : List Nat :=
  pyRange 1 periods revise_periods

/-- The revision loop of `__call__`: each subsequent window is seeded with
`self.planned.surplus[-1]` and `self.planned.export_deficit[-1]` (negative
indexing on an empty list raises `IndexError`). -/
def runGo (e : Economy) (ts : TargetsSrc) (eco : Option Ecology)
    (periods horizon_periods revise_periods : Nat) (oracle : Oracle) :
    List Nat → PlanState → PlanState × Option Err
  | [], st => (st, none)
  | p :: rest, st =>
    match st.planned.surplus.getLast?, st.planned.export_deficit.getLast? with
    | some s, some d =>
      match optimize_period e ts eco periods horizon_periods revise_periods
          (oracle p) p s d st with
      | (st', none) => runGo e ts eco periods horizon_periods revise_periods oracle rest st'
      | (st', some er) => (st', some er)
    | _, _ => (st, some .indexError)

/-- Embeds `OptimizePlan.__call__` as a state transformer: reset the accumulators,
solve the window at period 0 with the given initial surplus and deficit,
then the windows of the revision loop.  Returns the final instance state and
the raised error, if any. -/
def runCore (e : Economy) (ts : TargetsSrc) (eco : Option Ecology)
    (periods horizon_periods revise_periods : Nat) (oracle : Oracle)
    (surplus0 : Vec) (deficit0 : ℚ) : PlanState × Option Err :=
  match optimize_period e ts eco periods horizon_periods revise_periods
      (oracle 0) 0 surplus0 deficit0 emptyState with
  | (st, some er) => (st, some er)
  | (st, none) =>
    runGo e ts eco periods horizon_periods revise_periods oracle
      (windowStarts periods revise_periods) st

/-- Embeds `OptimizePlan.__call__` as observed by the caller: the returned
`PlannedEconomy`, or the raised exception. -/
def run (e : Economy) (ts : TargetsSrc) (eco : Option Ecology)
    (periods horizon_periods revise_periods : Nat) (oracle : Oracle)
    (surplus0 : Vec) (deficit0 : ℚ) : Except Err PlannedEconomy :=
  match runCore e ts eco periods horizon_periods revise_periods oracle surplus0 deficit0 with
  | (st, none) => .ok st.planned
  | (_, some er) => .error er

/-- Runs `run` on the source's own target accesses (`economy.target_*`). -/
def runReal (e : Economy) (eco : Option Ecology)
    (periods horizon_periods revise_periods : Nat) (oracle : Oracle)
    (surplus0 : Vec) (deficit0 : ℚ) : Except Err PlannedEconomy :=
  run e (realTargetsSrc e) eco periods horizon_periods revise_periods oracle surplus0 deficit0

/-- Runs `run` with the targets supplied from the spec-modelled `Targets` record. -/
def runModelled (e : Economy) (tg : Targets) (eco : Option Ecology)
    (periods horizon_periods revise_periods : Nat) (oracle : Oracle)
    (surplus0 : Vec) (deficit0 : ℚ) : Except Err PlannedEconomy :=
  run e (modelledTargetsSrc tg) eco periods horizon_periods revise_periods oracle surplus0 deficit0

/-- Runs `runCore` with the spec-modelled targets (used to observe the ghost
traces of a run). -/
def runCoreModelled (e : Economy) (tg : Targets) (eco : Option Ecology)
    (periods horizon_periods revise_periods : Nat) (oracle : Oracle)
    (surplus0 : Vec) (deficit0 : ℚ) : PlanState × Option Err :=
  runCore e (modelledTargetsSrc tg) eco periods horizon_periods revise_periods oracle
    surplus0 deficit0

/-! ### Concrete instances used as witnesses and counterexamples -/

/-- The all-zero assignment. -/
def zeroAssign : Assign := ⟨fun _ => [0], fun _ => [0]⟩

/-- A solver that always reports optimality with the all-zero assignment. -/
def oracleZero : Oracle := fun _ => .optimal zeroAssign

/-- A 1-product, 1-sector economy with 5 periods of data, identity
depreciation, `supply = use_domestic` (so production is identically zero)
and all prices zero. -/
def econA : Economy :=
  { supply := [[[1]], [[1]], [[1]], [[1]], [[1]]]
    use_domestic := [[[1]], [[1]], [[1]], [[1]], [[1]]]
    use_import := [[[0]], [[0]], [[0]], [[0]], [[0]]]
    depreciation := [[[1]], [[1]], [[1]], [[1]], [[1]]]
    final_domestic := [[0], [0], [0], [0], [0]]
    final_export := [[0], [0], [0], [0], [0]]
    final_import := [[0], [0], [0], [0], [0]]
    prices_import := [[0], [0], [0], [0], [0]]
    prices_export := [[0], [0], [0], [0], [0]]
    worked_hours := [[0], [0], [0], [0], [0]]
    product_names := ["p"]
    sector_names := ["s"] }

/-- All-zero targets for `econA`. -/
def targetsA : Targets :=
  { target_domestic := [[0], [0], [0], [0], [0]]
    target_export := [[0], [0], [0], [0], [0]]
    target_import := [[0], [0], [0], [0], [0]] }

/-- Assignment returned for the first window of the `econA` run: zero
activity, imports 1 at period 0 and 2 at period 1. -/
def sigmaA0 : Assign :=
  ⟨fun _ => [0], fun t => if t = 0 then [1] else if t = 1 then [2] else [0]⟩

/-- Solver for the `econA` run: optimal everywhere, with `sigmaA0` for the
window at period 0 and the zero assignment afterwards. -/
def oracleA : Oracle := fun p => if p = 0 then .optimal sigmaA0 else .optimal zeroAssign

/-- A 1-product, 1-sector economy with 3 periods of data.  Imports cost 1 in
period 0 and are free afterwards; exports are worth 1 throughout. -/
def econB : Economy :=
  { supply := [[[1]], [[1]], [[1]]]
    use_domestic := [[[1]], [[1]], [[1]]]
    use_import := [[[0]], [[0]], [[0]]]
    depreciation := [[[1]], [[1]], [[1]]]
    final_domestic := [[0], [0], [0]]
    final_export := [[0], [0], [0]]
    final_import := [[0], [0], [0]]
    prices_import := [[1], [0], [0]]
    prices_export := [[1], [1], [1]]
    worked_hours := [[0], [0], [0]]
    product_names := ["p"]
    sector_names := ["s"] }

/-- Targets for `econB`: a domestic target of 10 at period 0 and an export
target of 20 at period 1. -/
def targetsB : Targets :=
  { target_domestic := [[10], [0], [0]]
    target_export := [[0], [20], [0]]
    target_import := [[0], [0], [0]] }

/-- First-window assignment for the `econB` run: imports 10 at period 0 and
20 at period 1 (the minimum the production constraints allow). -/
def sigmaB0 : Assign :=
  ⟨fun _ => [0], fun t => if t = 0 then [10] else if t = 1 then [20] else [0]⟩

/-- Second-window assignment for the `econB` run: imports 20 at period 1. -/
def sigmaB1 : Assign :=
  ⟨fun _ => [0], fun t => if t = 1 then [20] else [0]⟩

/-- Solver for the `econB` run. -/
def oracleB : Oracle := fun p => if p = 0 then .optimal sigmaB0 else .optimal sigmaB1

/-- A 1-product, 1-sector economy with 2 periods of data, zero prices and
zero worked hours. -/
def econC : Economy :=
  { supply := [[[1]], [[1]]]
    use_domestic := [[[1]], [[1]]]
    use_import := [[[0]], [[0]]]
    depreciation := [[[1]], [[1]]]
    final_domestic := [[0], [0]]
    final_export := [[0], [0]]
    final_import := [[0], [0]]
    prices_import := [[0], [0]]
    prices_export := [[0], [0]]
    worked_hours := [[0], [0]]
    product_names := ["p"]
    sector_names := ["s"] }

/-- All-zero targets for `econC`. -/
def targetsC : Targets :=
  { target_domestic := [[0], [0]]
    target_export := [[0], [0]]
    target_import := [[0], [0]] }

/-- First-window assignment for the `econC` run: activity 1 everywhere. -/
def sigmaC0 : Assign := ⟨fun _ => [1], fun _ => [0]⟩

/-- Second-window assignment for the `econC` run: activity 10 everywhere —
in particular the free variable `activity[0]` of the second window's labor
constraint is re-assigned 10, so `activity[1] = 10` satisfies that window's
constraints. -/
def sigmaC1 : Assign := ⟨fun _ => [10], fun _ => [0]⟩

/-- Solver for the `econC` run. -/
def oracleC : Oracle := fun p => if p = 0 then .optimal sigmaC0 else .optimal sigmaC1

/-- The plan returned by the `econA` run (`periods = 4`, `horizon = 2`,
`revise = 2`, solver `oracleA`). -/
def planA : PlannedEconomy :=
  { activity := [[0], [0], [0], [0], [0]]
    production := [[0], [0], [0], [0], [0]]
    surplus := [[1], [3], [0], [3], [3]]
    total_import := [[1], [2], [0], [0], [0]]
    export_deficit := [0, 0, 0, 0, 0]
    worked_hours := [0, 0, 0, 0, 0] }

/-- The plan returned by the `econB` run (`periods = 2`, `horizon = 2`,
`revise = 2`, solver `oracleB`). -/
def planB : PlannedEconomy :=
  { activity := [[0], [0], [0]]
    production := [[0], [0], [0]]
    surplus := [[0], [0], [-10]]
    total_import := [[10], [20], [20]]
    export_deficit := [-10, 10, 20]
    worked_hours := [0, 0, 0] }

/-- The plan returned by the `econC` run (`periods = 2`, `horizon = 1`,
`revise = 1`, solver `oracleC`). -/
def planC : PlannedEconomy :=
  { activity := [[1], [10]]
    production := [[0], [0]]
    surplus := [[0], [0]]
    total_import := [[0], [0]]
    export_deficit := [0, 0]
    worked_hours := [0, 0] }

/-- A valid 1-product, 1-sector, 1-period economy whose `sector_names` list
has the wrong length (2 names for 1 sector) while `product_names` is
correct. -/
def econD : Economy :=
  { supply := [[[1]]]
    use_domestic := [[[0]]]
    use_import := [[[0]]]
    depreciation := [[[1]]]
    final_domestic := [[0]]
    final_export := [[0]]
    final_import := [[0]]
    prices_import := [[0]]
    prices_export := [[0]]
    worked_hours := [[0]]
    product_names := ["p"]
    sector_names := ["s1", "s2"] }

/-- Replace a solver's answer at window `p` by `optimal σ`. -/
def patchOracle (oracle : Oracle) (p : Nat) (σ : Assign) : Oracle :=
  fun q => if q = p then .optimal σ else oracle q

/-- A solver for `econA` that reports the window at period 3 infeasible. -/
def oracleA3 : Oracle := fun p => if p = 3 then .infeasible else oracleA p

/-! ### Theorems -/

deriving instance DecidableEq for Except

/-- C10: the claim is that construction fails with the sector-names error
whenever `sector_names` has the wrong length.  The code instead re-checks
`len(product_names) != products` in the sector branch of `model_post_init`,
so an economy with a wrong-length `sector_names` (2 names, 1 sector) and a
correct `product_names` is accepted: full validation returns no error. -/
theorem wrong_sector_names_accepted :
    validateEconomy econD = none ∧
    econD.sector_names.length = 2 ∧ Economy.sectors econD = 1 ∧ (2 : Nat) ≠ 1 := by
  decide

/-- C8: controller construction fails with `ErrorRevisePeriods` (the spec's
`RevisePeriodsExceedsHorizon`) exactly when `revise_periods >
horizon_periods`, independently of `periods`, the economy's period count and
the presence of ecology data. -/
theorem construct_revise_error_iff (P h r : Nat) (e : Economy) (eco : Option Ecology) :
    construct P h r e eco = .error Err.errorRevisePeriods ↔ h < r := by
  unfold construct validatePlan
  split_ifs with h1 h2
  · exact iff_of_true rfl h1
  · exact iff_of_false (by simp) (by omega)
  · refine iff_of_false ?_ (by omega)
    by_cases hc : (r : ℤ) * (((P : ℤ) + r - 1) / r - 1) + h > (e.supply.length : ℤ)
    · simp [hc]
    · simp [hc]

/-- C2: the claim says a run that returns always yields exactly `periods`
entries per sequence.  On `econA` with `periods = 4`, `horizon_periods = 2`,
`revise_periods = 2` (construction succeeds) and a solver whose assignments
satisfy every window's constraints, the run returns a plan with 5 entries in
each of the six sequences, because the revision loop `range(1, periods,
revise_periods)` re-solves and re-commits period 1. -/
theorem run_returns_five_entries_for_four_periods :
    validateEconomy econA = none ∧
    construct 4 2 2 econA none = .ok () ∧
    runModelled econA targetsA none 4 2 2 oracleA [0] 0 = .ok planA ∧
    (runCoreModelled econA targetsA none 4 2 2 oracleA [0] 0).1.trace_sat =
      [true, true, true] ∧
    planA.activity.length = 5 ∧ planA.production.length = 5 ∧
    planA.surplus.length = 5 ∧ planA.total_import.length = 5 ∧
    planA.export_deficit.length = 5 ∧ planA.worked_hours.length = 5 := by
  refine ⟨by decide, by decide, ?_, ?_, by decide, by decide, by decide, by decide,
    by decide, by decide⟩ <;>
  · norm_num [runModelled, runCoreModelled, run, runCore, runGo, optimize_period,
      buildWindow, production_constraints, prodLoop, prodStep, export_constraints,
      expLoop, labor_realloc_constraint, laborLow, laborUp, ecoConstraints, cost,
      costLoop, save_plan_period, saveLoop,
      saveStep, windowStarts, pyRange, pyRangeAux, pyGet, emptyState,
      modelledTargetsSrc, Economy.products, Economy.sectors,
      Bind.bind, Except.bind, Except.map, Except.pure, pure,
      List.getElem?_cons_zero, List.getElem?_cons_succ, List.getElem?_nil,
      dotV, matVec, vAdd, vSub, vHad, matSub, vNonneg, vLe,
      econA, targetsA, oracleA, sigmaA0, zeroAssign, planA]

/-- C3: the claim says the window starts after period 0 are
`revise_periods, 2*revise_periods, …` and that no period is committed
twice.  The code's loop is `range(1, periods, revise_periods)`: for
`periods = 4`, `revise_periods = 2` the starts are `[1, 3]` (not `[2]`),
and in the `econA` run period 1 is committed twice — the committed-period
trace is `[0, 1, 1, 2, 3]`. -/
theorem revision_windows_start_at_one :
    windowStarts 4 2 = [1, 3] ∧ windowStarts 4 2 ≠ [2] ∧
    (runCoreModelled econA targetsA none 4 2 2 oracleA [0] 0).1.trace_commits =
      [(0, 0), (0, 1), (1, 1), (1, 2), (3, 3)] ∧
    ¬ ([(0, 0), (0, 1), (1, 1), (1, 2), (3, 3)].map Prod.snd).Nodup := by
  refine ⟨by decide, by decide, ?_, by decide⟩
  norm_num [runModelled, runCoreModelled, run, runCore, runGo, optimize_period,
    buildWindow, production_constraints, prodLoop, prodStep, export_constraints,
    expLoop, labor_realloc_constraint, laborLow, laborUp, ecoConstraints, cost,
    costLoop, save_plan_period, saveLoop,
    saveStep, windowStarts, pyRange, pyRangeAux, pyGet, emptyState,
    modelledTargetsSrc, Economy.products, Economy.sectors,
    Bind.bind, Except.bind, Except.map, Except.pure, pure,
    List.getElem?_cons_zero, List.getElem?_cons_succ, List.getElem?_nil,
    dotV, matVec, vAdd, vSub, vHad, matSub, vNonneg, vLe,
    econA, targetsA, oracleA, sigmaA0, zeroAssign]

/-- C5: the claim says each later window at start `p` is seeded with the
committed surplus and deficit of period `p - 1`.  In the `econA` run the
committed surplus of period 0 is `[1]` and that of period 1 is `[3]`; the
window at `p = 1` is seeded with `[3]` — the committed value of period 1
itself (the last committed period of the window at 0), not of period
`p - 1 = 0`. -/
theorem second_window_seeded_with_period_one_value :
    (runCoreModelled econA targetsA none 4 2 2 oracleA [0] 0).1.trace_seeds =
      [(0, [0], 0), (1, [3], 0), (3, [3], 0)] ∧
    runModelled econA targetsA none 4 2 2 oracleA [0] 0 = .ok planA ∧
    planA.surplus = [[1], [3], [0], [3], [3]] ∧
    ([3] : Vec) ≠ ([1] : Vec) := by
  refine ⟨?_, ?_, by decide, by decide⟩ <;>
  · norm_num [runModelled, runCoreModelled, run, runCore, runGo, optimize_period,
      buildWindow, production_constraints, prodLoop, prodStep, export_constraints,
      expLoop, labor_realloc_constraint, laborLow, laborUp, ecoConstraints, cost,
      costLoop, save_plan_period, saveLoop,
      saveStep, windowStarts, pyRange, pyRangeAux, pyGet, emptyState,
      modelledTargetsSrc, Economy.products, Economy.sectors,
      Bind.bind, Except.bind, Except.map, Except.pure, pure,
      List.getElem?_cons_zero, List.getElem?_cons_succ, List.getElem?_nil,
      dotV, matVec, vAdd, vSub, vHad, matSub, vNonneg, vLe,
      econA, targetsA, oracleA, sigmaA0, zeroAssign, planA]

/-- C4 counterexample: in the `econB` run (`periods = 2`, `horizon = 2`,
`revise = 2`), every window's constraints are satisfied by the solver's
assignment (so the run is feasible and returns), yet the first committed
`export_deficit` value is `-10 < 0`: the deficit constraint is only imposed
on the deficit at the end of each revise sub-window, not at every period. -/
theorem committed_export_deficit_negative :
    construct 2 2 2 econB none = .ok () ∧
    runModelled econB targetsB none 2 2 2 oracleB [0] 0 = .ok planB ∧
    (runCoreModelled econB targetsB none 2 2 2 oracleB [0] 0).1.trace_sat =
      [true, true] ∧
    planB.export_deficit = [-10, 10, 20] ∧
    ¬ ((0 : ℚ) ≤ -10) := by
  refine ⟨by decide, ?_, ?_, by decide, by norm_num⟩ <;>
  · norm_num [runModelled, runCoreModelled, run, runCore, runGo, optimize_period,
      buildWindow, production_constraints, prodLoop, prodStep, export_constraints,
      expLoop, labor_realloc_constraint, laborLow, laborUp, ecoConstraints, cost,
      costLoop, save_plan_period, saveLoop,
      saveStep, windowStarts, pyRange, pyRangeAux, pyGet, emptyState,
      modelledTargetsSrc, Economy.products, Economy.sectors,
      Bind.bind, Except.bind, Except.map, Except.pure, pure,
      List.getElem?_cons_zero, List.getElem?_cons_succ, List.getElem?_nil,
      dotV, matVec, vAdd, vSub, vHad, matSub, vNonneg, vLe,
      econB, targetsB, oracleB, sigmaB0, sigmaB1, planB]

/-- C6 counterexample: in the `econC` run (`periods = 2`, `horizon = 1`,
`revise = 1`), each window's constraints are satisfied by the solver's
assignment, yet the committed plan has `activity = [[1], [10]]`:
`activity[1] = 10` exceeds `1.1 * activity[0] = 1.1`, because the second
window's labor constraint compares `activity[1]` against the free variable
`activity[0]`, which that solve re-assigns to 10. -/
theorem committed_activity_jump_exceeds_bound :
    construct 2 1 1 econC none = .ok () ∧
    runModelled econC targetsC none 2 1 1 oracleC [0] 0 = .ok planC ∧
    (runCoreModelled econC targetsC none 2 1 1 oracleC [0] 0).1.trace_sat =
      [true, true] ∧
    planC.activity = [[1], [10]] ∧
    vLe [10] (vHad [(11/10 : ℚ)] [1]) = false := by
  refine ⟨by decide, ?_, ?_, by decide, by norm_num [vLe, vHad]⟩ <;>
  · norm_num [runModelled, runCoreModelled, run, runCore, runGo, optimize_period,
      buildWindow, production_constraints, prodLoop, prodStep, export_constraints,
      expLoop, labor_realloc_constraint, laborLow, laborUp, ecoConstraints, cost,
      costLoop, save_plan_period, saveLoop,
      saveStep, windowStarts, pyRange, pyRangeAux, pyGet, emptyState,
      modelledTargetsSrc, Economy.products, Economy.sectors,
      Bind.bind, Except.bind, Except.map, Except.pure, pure,
      List.getElem?_cons_zero, List.getElem?_cons_succ, List.getElem?_nil,
      dotV, matVec, vAdd, vSub, vHad, matSub, vNonneg, vLe,
      econC, targetsC, oracleC, sigmaC0, sigmaC1, planC]

/-- The labor-reallocation constraint list, written as a flat map over the
revise sub-window. -/
theorem labor_realloc_eq_flatMap (e : Economy) (revise_periods period : Nat) :
    labor_realloc_constraint e revise_periods period =
      (pyRange period (period + revise_periods) 1).flatMap
        (fun t => if t = 0 then [] else [laborLow e t, laborUp e t]) := by
  unfold labor_realloc_constraint
  suffices hgen : ∀ (l : List Nat) (acc : List CExpr),
      l.foldl (fun acc t => if t = 0 then acc else acc ++ [laborLow e t, laborUp e t]) acc
        = acc ++ l.flatMap (fun t => if t = 0 then [] else [laborLow e t, laborUp e t]) by
    simpa using hgen (pyRange period (period + revise_periods) 1) []
  intro l
  induction l with
  | nil => intro acc; simp
  | cons t rest ih =>
    intro acc
    by_cases ht : t = 0 <;> simp [List.flatMap_cons, ht, ih]

/-- C6 (amended): in any window solve, an assignment that satisfies the
window's constraint list satisfies the labor-reallocation bounds
`0.9 * activity[t-1] ≤ activity[t] ≤ 1.1 * activity[t-1]` for every period
`t ≠ 0` of the revise sub-window (period 0 of the run is exempt, no such
constraint being generated for it); the committed plan may still violate the
bounds across window boundaries, since `activity[t-1]` is a free variable of
the later window's solve. -/
theorem labor_bounds_enforced_within_window
    (e : Economy) (ts : TargetsSrc) (eco : Option Ecology)
    (P h r period : Nat) (s : Vec) (d : ℚ) (σ : Assign) (t : Nat)
    (hb : (buildWindow e ts eco P h r period s d).map
        (fun out => out.1.all (fun c => c σ)) = .ok true)
    (ht : t ∈ pyRange period (period + r) 1) (ht0 : t ≠ 0) :
    laborLow e t σ = true ∧ laborUp e t σ = true := by
  cases hw : buildWindow e ts eco P h r period s d with
  | error er => rw [hw] at hb; simp [Except.map] at hb
  | ok out =>
    rw [hw] at hb
    simp only [Except.map, Except.ok.injEq] at hb
    unfold buildWindow at hw
    cases hpa : production_constraints e ts P h r period s with
    | error er => rw [hpa] at hw; simp [Bind.bind, Except.bind] at hw
    | ok pa =>
      rw [hpa] at hw
      cases hec : export_constraints e ts P r period d with
      | error er => rw [hec] at hw; simp [Bind.bind, Except.bind] at hw
      | ok ecp =>
        rw [hec] at hw
        obtain ⟨ec, dAcc⟩ := ecp
        cases hpc : ecoConstraints eco r period with
        | error er => rw [hpc] at hw; simp [Bind.bind, Except.bind] at hw
        | ok pc =>
          rw [hpc] at hw
          cases hco : cost e h r period with
          | error er => rw [hco] at hw; simp [Bind.bind, Except.bind] at hw
          | ok co =>
            rw [hco] at hw
            obtain ⟨obj, whAcc⟩ := co
            simp only [Bind.bind, Except.bind, Except.ok.injEq] at hw
            have hcs : out.1 = pa.constraints ++ ec ++ labor_realloc_constraint e r period ++ pc := by
              rw [← hw]
            rw [hcs] at hb
            have hall := List.all_eq_true.mp hb
            have hmemL : laborLow e t ∈ labor_realloc_constraint e r period := by
              rw [labor_realloc_eq_flatMap]
              exact List.mem_flatMap.mpr ⟨t, ht, by simp [ht0]⟩
            have hmemU : laborUp e t ∈ labor_realloc_constraint e r period := by
              rw [labor_realloc_eq_flatMap]
              exact List.mem_flatMap.mpr ⟨t, ht, by simp [ht0]⟩
            constructor
            · exact hall (laborLow e t) (by
                simp only [List.mem_append]
                exact Or.inl (Or.inr hmemL))
            · exact hall (laborUp e t) (by
                simp only [List.mem_append]
                exact Or.inl (Or.inr hmemU))

/-- C6 (amended) witness: the second window of the `econC` run, whose
constraints `sigmaC1` satisfies, enforces the labor bounds at period 1 of
that window. -/
theorem labor_bounds_enforced_witness :
    laborLow econC 1 sigmaC1 = true ∧ laborUp econC 1 sigmaC1 = true := by
  refine labor_bounds_enforced_within_window econC (modelledTargetsSrc targetsC) none
    2 1 1 1 [0] 0 sigmaC1 1 ?_ (by decide) (by decide)
  norm_num [buildWindow, production_constraints, prodLoop, prodStep,
    export_constraints, expLoop, labor_realloc_constraint, laborLow, laborUp,
    ecoConstraints, cost, costLoop, pyRange, pyRangeAux, pyGet,
    modelledTargetsSrc, Economy.products, Economy.sectors,
    Bind.bind, Except.bind, Except.map, Except.pure, pure,
    List.getElem?_cons_zero, List.getElem?_cons_succ, List.getElem?_nil,
    dotV, matVec, vAdd, vSub, vHad, matSub, vNonneg, vLe,
    econC, targetsC, sigmaC1]

/-- C4 (amended): in any window solve, the single trade-balance constraint
generated by `export_constraints` forces the deficit accumulated at the end
of the revise sub-window to be nonnegative under any assignment satisfying
the window's constraint list (the deficits at earlier periods of the
sub-window are recorded but not constrained). -/
theorem export_deficit_end_enforced
    (e : Economy) (ts : TargetsSrc) (eco : Option Ecology)
    (P h r period : Nat) (s : Vec) (d : ℚ) (σ : Assign)
    (hb : (buildWindow e ts eco P h r period s d).map
        (fun out => out.1.all (fun c => c σ)) = .ok true) :
    (exportDeficitEnd e ts P r period d).map (fun dE => decide (0 ≤ dE σ)) = .ok true := by
  cases hw : buildWindow e ts eco P h r period s d with
  | error er => rw [hw] at hb; simp [Except.map] at hb
  | ok out =>
    rw [hw] at hb
    simp only [Except.map, Except.ok.injEq] at hb
    unfold buildWindow at hw
    cases hpa : production_constraints e ts P h r period s with
    | error er => rw [hpa] at hw; simp [Bind.bind, Except.bind] at hw
    | ok pa =>
      rw [hpa] at hw
      cases hec : export_constraints e ts P r period d with
      | error er => rw [hec] at hw; simp [Bind.bind, Except.bind] at hw
      | ok ecp =>
        rw [hec] at hw
        obtain ⟨ec, dAcc⟩ := ecp
        cases hpc : ecoConstraints eco r period with
        | error er => rw [hpc] at hw; simp [Bind.bind, Except.bind] at hw
        | ok pc =>
          rw [hpc] at hw
          cases hco : cost e h r period with
          | error er => rw [hco] at hw; simp [Bind.bind, Except.bind] at hw
          | ok co =>
            rw [hco] at hw
            obtain ⟨obj, whAcc⟩ := co
            simp only [Bind.bind, Except.bind, Except.ok.injEq] at hw
            have hcs : out.1 = pa.constraints ++ ec ++ labor_realloc_constraint e r period ++ pc := by
              rw [← hw]
            unfold export_constraints at hec
            cases hel : expLoop e ts P r period (pyRange period (period + r) 1)
                (fun _ => d) [] with
            | error er => rw [hel] at hec; simp [Bind.bind, Except.bind] at hec
            | ok pr =>
              rw [hel] at hec
              obtain ⟨dEnd, dA⟩ := pr
              simp only [Bind.bind, Except.bind, Except.ok.injEq] at hec
              obtain ⟨hec1, hec2⟩ := Prod.mk.injEq .. ▸ hec
              unfold exportDeficitEnd
              rw [hel]
              simp only [Except.map, Except.ok.injEq]
              have hall := List.all_eq_true.mp (hcs ▸ hb)
              have hmem : (fun σ' => decide (0 ≤ dEnd σ')) ∈
                  pa.constraints ++ ec ++ labor_realloc_constraint e r period ++ pc := by
                simp only [List.mem_append]
                refine Or.inl (Or.inl (Or.inr ?_))
                rw [← hec1]
                simp
              exact hall _ hmem

/-- C4 (amended) witness: the first window of the `econB` run, whose
constraints `sigmaB0` satisfies, forces its end-of-sub-window deficit to be
nonnegative under `sigmaB0`. -/
theorem export_deficit_end_enforced_witness :
    (exportDeficitEnd econB (modelledTargetsSrc targetsB) 2 2 0 0).map
      (fun dE => decide (0 ≤ dE sigmaB0)) = .ok true := by
  refine export_deficit_end_enforced econB (modelledTargetsSrc targetsB) none
    2 2 2 0 [0] 0 sigmaB0 ?_
  norm_num [buildWindow, production_constraints, prodLoop, prodStep,
    export_constraints, expLoop, labor_realloc_constraint, laborLow, laborUp,
    ecoConstraints, cost, costLoop, pyRange, pyRangeAux, pyGet,
    modelledTargetsSrc, Economy.products, Economy.sectors,
    Bind.bind, Except.bind, Except.map, Except.pure, pure,
    List.getElem?_cons_zero, List.getElem?_cons_succ, List.getElem?_nil,
    dotV, matVec, vAdd, vSub, vHad, matSub, vNonneg, vLe,
    econB, targetsB, sigmaB0]

/-- The ceiling of `P / r` as computed by `math.ceil(periods /
revise_periods)` equals the integer formula used by `_validate_plan`. -/
theorem ceilDiv_eq (P r : Nat) (hr : 0 < r) :
    ⌈(P : ℚ) / (r : ℚ)⌉ = ((P : ℤ) + r - 1) / r := by
  have hrZ : (0 : ℤ) < (r : ℤ) := by exact_mod_cast hr
  have hrQ : (0 : ℚ) < (r : ℚ) := by exact_mod_cast hr
  have hub : ((P : ℤ) + r - 1) / r * r ≤ (P : ℤ) + r - 1 :=
    Int.ediv_mul_le _ (by omega)
  have hlb : (P : ℤ) + r - 1 < (((P : ℤ) + r - 1) / r + 1) * r :=
    Int.lt_ediv_add_one_mul_self _ hrZ
  apply le_antisymm
  · rw [Int.ceil_le, div_le_iff₀ hrQ]
    have hP : (P : ℤ) ≤ ((P : ℤ) + r - 1) / r * r := by nlinarith
    calc (P : ℚ) ≤ ((((P : ℤ) + r - 1) / r * r : ℤ) : ℚ) := by exact_mod_cast hP
    _ = ((((P : ℤ) + r - 1) / r : ℤ) : ℚ) * ((r : ℤ) : ℚ) := by push_cast; ring
    _ = ((((P : ℤ) + r - 1) / r : ℤ) : ℚ) * (r : ℚ) := by norm_cast
  · have hlt : ((P : ℤ) + r - 1) / r - 1 < ⌈(P : ℚ) / (r : ℚ)⌉ := by
      rw [Int.lt_ceil, lt_div_iff₀ hrQ]
      have hP : (((P : ℤ) + r - 1) / r - 1) * r < (P : ℤ) := by nlinarith
      calc ((((P : ℤ) + r - 1) / r - 1 : ℤ) : ℚ) * (r : ℚ)
          = (((((P : ℤ) + r - 1) / r - 1) * r : ℤ) : ℚ) := by push_cast; ring
      _ < ((P : ℤ) : ℚ) := by exact_mod_cast hP
      _ = (P : ℚ) := by norm_cast
    omega

/-- C9: with `revise_periods ≤ horizon_periods` (and a positive
`revise_periods`), controller construction fails with `ErrorPeriods` (the
spec's `InsufficientEconomyPeriods`) exactly when the economy's period count
(the length of the `supply` series) is strictly less than
`revise_periods * (ceil(periods / revise_periods) - 1) + horizon_periods`. -/
theorem construct_insufficient_periods_iff (P h r : Nat) (e : Economy)
    (eco : Option Ecology) (hr : 0 < r) (hrh : r ≤ h) :
    construct P h r e eco = .error Err.errorPeriods ↔
      (e.supply.length : ℤ) < r * (⌈(P : ℚ) / (r : ℚ)⌉ - 1) + h := by
  unfold construct validatePlan
  rw [ceilDiv_eq P r hr]
  have h1 : ¬ (r > h) := by omega
  have h2 : ¬ (r = 0) := by omega
  simp only [if_neg h1, if_neg h2]
  by_cases hc : (r : ℤ) * (((P : ℤ) + r - 1) / r - 1) + h > (e.supply.length : ℤ)
  · exact iff_of_true (by simp [hc]) (by omega)
  · exact iff_of_false (by simp [hc]) (by omega)

/-- C9 witness: a 2-period economy with `periods = 4`, `horizon = 2`,
`revise = 2` is rejected with `ErrorPeriods`, matching the minimum-period
formula. -/
theorem construct_insufficient_periods_witness :
    construct 4 2 2 econC none = .error Err.errorPeriods := by
  refine (construct_insufficient_periods_iff 4 2 2 econC none (by norm_num)
    (by norm_num)).mpr ?_
  rw [ceilDiv_eq 4 2 (by norm_num)]
  decide

/-- C1: the validated model defines `final_domestic` / `final_export` /
`final_import` but none of the `target_*` fields read by the constraint
code; consequently, for every successfully constructed economy and
controller and every solver and initial state, `run` raises
`AttributeError("target_domestic")` while building the production-balance
constraints of the window at period 0 — before any solver result is
consulted (the solver oracle is universally quantified and never reached)
and with nothing committed to the output plan. -/
theorem run_always_fails_with_target_attribute_error
    (e : Economy) (eco : Option Ecology) (P h r : Nat) (oracle : Oracle)
    (s0 : Vec) (d0 : ℚ)
    (hv : validateEconomy e = none) (hc : construct P h r e eco = .ok ()) :
    ("final_domestic" ∈ Economy.modelFields ∧ "final_export" ∈ Economy.modelFields ∧
      "final_import" ∈ Economy.modelFields) ∧
    ("target_domestic" ∉ Economy.modelFields ∧ "target_export" ∉ Economy.modelFields ∧
      "target_import" ∉ Economy.modelFields) ∧
    production_constraints e (realTargetsSrc e) P h r 0 s0 =
      .error (.attributeError ("target_domestic")) ∧
    runReal e eco P h r oracle s0 d0 = .error (.attributeError ("target_domestic")) ∧
    (runCore e (realTargetsSrc e) eco P h r oracle s0 d0).1.trace_commits = [] := by
  -- the controller accepted the parameters, so 1 ≤ r ≤ h
  have hval : validatePlan P h r e = none := by
    cases hval : validatePlan P h r e with
    | none => rfl
    | some er => rw [construct, hval] at hc; simp at hc
  have hh : 0 < h := by
    unfold validatePlan at hval
    split_ifs at hval
    omega
  -- the economy validated, so the four matrix series are nonempty
  have hpi : modelPostInit e = none := by
    unfold validateEconomy at hv
    split at hv
    · simp at hv
    · exact hv
  obtain ⟨⟨s00, srest, hs⟩, ⟨ud0, udrest, hud⟩, ⟨ui0, uirest, hui⟩,
      ⟨dep0, deprest, hdep⟩⟩ :
      (∃ x xs, e.supply = x :: xs) ∧ (∃ x xs, e.use_domestic = x :: xs) ∧
      (∃ x xs, e.use_import = x :: xs) ∧ (∃ x xs, e.depreciation = x :: xs) := by
    unfold modelPostInit at hpi
    cases hsup : e.supply <;> cases hud : e.use_domestic <;>
      cases hui : e.use_import <;> cases hdep : e.depreciation <;>
      rw [hsup, hud, hui, hdep] at hpi <;>
      first
        | exact ⟨⟨_, _, rfl⟩, ⟨_, _, rfl⟩, ⟨_, _, rfl⟩, ⟨_, _, rfl⟩⟩
        | (simp only [List.head?_nil, List.head?_cons] at hpi
           try split_ifs at hpi
           all_goals simp at hpi)
  obtain ⟨h', rfl⟩ : ∃ h', h = h' + 1 := ⟨h - 1, by omega⟩
  have htarget : (realTargetsSrc e).dom = .error (.attributeError ("target_domestic")) := rfl
  have hpcerr : production_constraints e (realTargetsSrc e) P (h' + 1) r 0 s0 =
      .error (.attributeError ("target_domestic")) := by
    unfold production_constraints pyRange
    have hrange : pyRangeAux (0 + (h' + 1) - 0) 0 (0 + (h' + 1)) 1 =
        0 :: pyRangeAux h' 1 (0 + (h' + 1)) 1 := by
      simp [pyRangeAux]
    rw [hrange]
    unfold prodLoop prodStep
    rw [htarget]
    simp [hs, hud, hui, hdep, pyGet, Bind.bind, Except.bind]
  refine ⟨by decide, by decide, hpcerr, ?_, ?_⟩
  · unfold runReal run runCore optimize_period buildWindow
    rw [hpcerr]
    simp [Bind.bind, Except.bind]
  · unfold runCore optimize_period buildWindow
    rw [hpcerr]
    simp [Bind.bind, Except.bind, emptyState]

/-- C1 witness: on the concrete validated economy `econA` with accepted
parameters, the source-faithful run fails with the attribute error for any
solver. -/
theorem run_always_fails_witness :
    runReal econA none 4 2 2 oracleZero [0] 0 =
      .error (.attributeError ("target_domestic")) :=
  (run_always_fails_with_target_attribute_error econA none 4 2 2 oracleZero [0] 0
    (by decide) (by decide)).2.2.2.1

/-- Lemma: `saveStep` appends exactly the pair `(period, t)` to the commit trace. -/
theorem saveStep_trace (σ : Assign) (period t : Nat) (st st' : PlanState)
    (h : saveStep σ period t st = .ok st') :
    st'.trace_commits = st.trace_commits ++ [(period, t)] := by
  unfold saveStep at h
  simp only [Bind.bind, Except.bind] at h
  cases h1 : pyGet st.production t with
  | error er => rw [h1] at h; simp at h
  | ok pE =>
    rw [h1] at h
    cases h2 : pyGet st.surplus t with
    | error er => rw [h2] at h; simp at h
    | ok sE =>
      rw [h2] at h
      cases h3 : pyGet st.export_deficit t with
      | error er => rw [h3] at h; simp at h
      | ok dE =>
        rw [h3] at h
        cases h4 : pyGet st.worked_hours t with
        | error er => rw [h4] at h; simp at h
        | ok wE =>
          rw [h4] at h
          simp only [Except.ok.injEq] at h
          rw [← h]

/-- Every pair `saveLoop` adds to the commit trace has the window start as
its first component. -/
theorem saveLoop_trace (σ : Assign) (period : Nat) :
    ∀ (l : List Nat) (st st' : PlanState), saveLoop σ period l st = .ok st' →
      ∀ pr ∈ st'.trace_commits, pr ∈ st.trace_commits ∨ pr.1 = period := by
  intro l
  induction l with
  | nil =>
    intro st st' hsl pr hpr
    unfold saveLoop at hsl
    simp only [Except.ok.injEq] at hsl
    exact Or.inl (hsl ▸ hpr)
  | cons extra rest ih =>
    intro st st' hsl pr hpr
    unfold saveLoop at hsl
    simp only [Bind.bind, Except.bind] at hsl
    cases hss : saveStep σ period (period + extra) st with
    | error er => rw [hss] at hsl; simp at hsl
    | ok st1 =>
      rw [hss] at hsl
      rcases ih st1 st' hsl pr hpr with hin | hfst
      · rw [saveStep_trace σ period (period + extra) st st1 hss] at hin
        rcases List.mem_append.mp hin with hin2 | hin2
        · exact Or.inl hin2
        · simp at hin2
          exact Or.inr (by rw [hin2])
      · exact Or.inr hfst

/-- Every pair `_save_plan_period` adds to the commit trace has the window
start as its first component. -/
theorem save_plan_period_trace (periods revise_periods period : Nat) (σ : Assign)
    (st st' : PlanState) (h : save_plan_period periods revise_periods period σ st = .ok st') :
    ∀ pr ∈ st'.trace_commits, pr ∈ st.trace_commits ∨ pr.1 = period :=
  saveLoop_trace σ period _ st st' h

/-- On an infeasible or unbounded status, `optimize_period` reports
`InfeasibleProblem` at the window start and leaves the commit trace (and the
committed plan) unchanged. -/
theorem optimize_period_bad (e : Economy) (ts : TargetsSrc) (eco : Option Ecology)
    (P h r : Nat) (res : SolveResult) (period : Nat) (s : Vec) (d : ℚ)
    (st : PlanState)
    (out : List CExpr × List VExpr × List VExpr × List SExpr × List SExpr)
    (hres : res = SolveResult.infeasible ∨ res = SolveResult.unbounded)
    (hb : buildWindow e ts eco P h r period s d = .ok out) :
    (optimize_period e ts eco P h r res period s d st).2 =
      some (.infeasibleProblem period) ∧
    (optimize_period e ts eco P h r res period s d st).1.trace_commits =
      st.trace_commits ∧
    (optimize_period e ts eco P h r res period s d st).1.planned = st.planned := by
  obtain ⟨cs, sAcc, pAcc, dAcc, whAcc⟩ := out
  unfold optimize_period
  rw [hb]
  rcases hres with rfl | rfl <;> exact ⟨rfl, rfl, rfl⟩

/-- A window that completes without error commits only pairs whose first
component is its own start. -/
theorem optimize_period_none (e : Economy) (ts : TargetsSrc) (eco : Option Ecology)
    (P h r : Nat) (res : SolveResult) (period : Nat) (s : Vec) (d : ℚ)
    (st st' : PlanState)
    (hop : optimize_period e ts eco P h r res period s d st = (st', none)) :
    ∀ pr ∈ st'.trace_commits, pr ∈ st.trace_commits ∨ pr.1 = period := by
  unfold optimize_period at hop
  cases hb : buildWindow e ts eco P h r period s d with
  | error er => rw [hb] at hop; simp at hop
  | ok out =>
    obtain ⟨cs, sAcc, pAcc, dAcc, whAcc⟩ := out
    rw [hb] at hop
    cases res with
    | infeasible => simp at hop
    | unbounded => simp at hop
    | optimal σ =>
      simp only [] at hop
      split at hop
      · rename_i st2 heq
        simp only [Prod.mk.injEq] at hop
        intro pr hpr
        rcases save_plan_period_trace P r period σ _ st2 heq pr
            (by rw [hop.1]; exact hpr) with hin | hfst
        · exact Or.inl hin
        · exact Or.inr hfst
      · simp at hop

/-- Elements of `pyRangeAux` are at least the start value. -/
theorem pyRangeAux_le_of_mem :
    ∀ (fuel start stop step x : Nat), x ∈ pyRangeAux fuel start stop step → start ≤ x := by
  intro fuel
  induction fuel with
  | zero => intro start stop step x hx; simp [pyRangeAux] at hx
  | succ n ih =>
    intro start stop step x hx
    unfold pyRangeAux at hx
    by_cases hlt : start < stop
    · rw [if_pos hlt] at hx
      rcases List.mem_cons.mp hx with rfl | hx2
      · exact le_refl x
      · have := ih (start + step) stop step x hx2
        omega
    · rw [if_neg hlt] at hx
      simp at hx

/-- Lemma: `pyRangeAux` is strictly increasing for a positive step. -/
theorem pyRangeAux_pairwise (step : Nat) (hstep : 0 < step) :
    ∀ (fuel start stop : Nat), List.Pairwise (· < ·) (pyRangeAux fuel start stop step) := by
  intro fuel
  induction fuel with
  | zero => intro start stop; simp [pyRangeAux]
  | succ n ih =>
    intro start stop
    unfold pyRangeAux
    by_cases hlt : start < stop
    · rw [if_pos hlt]
      refine List.pairwise_cons.mpr ⟨?_, ih (start + step) stop⟩
      intro x hx
      have := pyRangeAux_le_of_mem n (start + step) stop step x hx
      omega
    · rw [if_neg hlt]
      exact List.Pairwise.nil

/-- The revision-loop window starts are all positive. -/
theorem windowStarts_pos (P r q : Nat) (hq : q ∈ windowStarts P r) : 1 ≤ q :=
  pyRangeAux_le_of_mem (P - 1) 1 P r q hq

/-- The revision-loop window starts are strictly increasing. -/
theorem windowStarts_pairwise (P r : Nat) (hr : 0 < r) :
    List.Pairwise (· < ·) (windowStarts P r) :=
  pyRangeAux_pairwise r hr (P - 1) 1 P

/-- Driving lemma for the failure semantics: if the revision loop would
complete when window `p`'s status is patched to optimal, then with the
actual (infeasible or unbounded) status at `p` it stops at `p` with
`InfeasibleProblem p`, all commits made coming from windows before `p`. -/
theorem runGo_infeasible (e : Economy) (ts : TargetsSrc) (eco : Option Ecology)
    (P h r : Nat) (oracle : Oracle) (p : Nat) (σ' : Assign)
    (hbad : oracle p = SolveResult.infeasible ∨ oracle p = SolveResult.unbounded) :
    ∀ (ps : List Nat) (st : PlanState), p ∈ ps → List.Pairwise (· < ·) ps →
      (runGo e ts eco P h r (patchOracle oracle p σ') ps st).2 = none →
      (runGo e ts eco P h r oracle ps st).2 = some (.infeasibleProblem p) ∧
      ∀ pr ∈ (runGo e ts eco P h r oracle ps st).1.trace_commits,
        pr ∈ st.trace_commits ∨ pr.1 < p := by
  intro ps
  induction ps with
  | nil => intro st hp; exact absurd hp (List.not_mem_nil p)
  | cons q rest ih =>
    intro st hp hpw hok
    unfold runGo at hok ⊢
    cases hgl1 : st.planned.surplus.getLast? with
    | none => rw [hgl1] at hok; simp at hok
    | some s =>
      rw [hgl1] at hok
      cases hgl2 : st.planned.export_deficit.getLast? with
      | none => rw [hgl2] at hok; simp at hok
      | some d =>
        rw [hgl2] at hok
        simp only [] at hok ⊢
        by_cases hqp : q = p
        · subst hqp
          have hpq : patchOracle oracle q σ' q = .optimal σ' := by simp [patchOracle]
          rw [hpq] at hok
          cases hop : optimize_period e ts eco P h r (SolveResult.optimal σ') q s d st with
          | mk st1 errOpt =>
            rw [hop] at hok
            cases errOpt with
            | some er => simp at hok
            | none =>
              obtain ⟨out, hb⟩ : ∃ out, buildWindow e ts eco P h r q s d = .ok out := by
                cases hb : buildWindow e ts eco P h r q s d with
                | error er =>
                  unfold optimize_period at hop
                  rw [hb] at hop
                  simp at hop
                | ok out => exact ⟨out, rfl⟩
              obtain ⟨h2, htr, _⟩ :=
                optimize_period_bad e ts eco P h r (oracle q) q s d st out hbad hb
              cases hop2 : optimize_period e ts eco P h r (oracle q) q s d st with
              | mk st2 err2 =>
                rw [hop2] at h2 htr
                simp only [] at h2 htr
                rw [h2]
                refine ⟨rfl, ?_⟩
                intro pr hpr
                have hpr' : pr ∈ st2.trace_commits := hpr
                rw [htr] at hpr'
                exact Or.inl hpr'
        · have hpq : patchOracle oracle p σ' q = oracle q := by simp [patchOracle, hqp]
          rw [hpq] at hok
          cases hop : optimize_period e ts eco P h r (oracle q) q s d st with
          | mk st1 errOpt =>
            rw [hop] at hok
            cases errOpt with
            | some er => simp at hok
            | none =>
              have hp' : p ∈ rest := by
                rcases List.mem_cons.mp hp with rfl | h'
                · exact absurd rfl hqp
                · exact h'
              have hq_lt : q < p := (List.pairwise_cons.mp hpw).1 p hp'
              obtain ⟨h1, h2⟩ := ih st1 hp' (List.pairwise_cons.mp hpw).2 hok
              refine ⟨h1, ?_⟩
              intro pr hpr
              rcases h2 pr hpr with hin | hlt
              · rcases optimize_period_none e ts eco P h r (oracle q) q s d st st1
                    hop pr hin with hin2 | hfst
                · exact Or.inl hin2
                · exact Or.inr (by omega)
              · exact Or.inr hlt

/-- C7: if the solver (arbitrary otherwise) reports the window starting at
`p` infeasible or unbounded — the two statuses are treated identically —
and the run would otherwise proceed normally through `p` (expressed by: the
same run with `p`'s status patched to optimal finishes without error), then
the run raises `InfeasibleProblem p` immediately: no `PlannedEconomy` is
returned, and no period is committed by the window at `p` (every committed
pair belongs to an earlier window). -/
theorem run_infeasible_aborts (e : Economy) (ts : TargetsSrc) (eco : Option Ecology)
    (P h r : Nat) (oracle : Oracle) (s0 : Vec) (d0 : ℚ) (p : Nat) (σ' : Assign)
    (hr : 0 < r)
    (hbad : oracle p = SolveResult.infeasible ∨ oracle p = SolveResult.unbounded)
    (hsched : p = 0 ∨ p ∈ windowStarts P r)
    (hok : (runCore e ts eco P h r (patchOracle oracle p σ') s0 d0).2 = none) :
    (runCore e ts eco P h r oracle s0 d0).2 = some (.infeasibleProblem p) ∧
    run e ts eco P h r oracle s0 d0 = .error (.infeasibleProblem p) ∧
    ∀ pr ∈ (runCore e ts eco P h r oracle s0 d0).1.trace_commits, pr.1 ≠ p := by
  have hrun : ∀ st er, runCore e ts eco P h r oracle s0 d0 = (st, some er) →
      run e ts eco P h r oracle s0 d0 = .error er := by
    intro st er hco
    unfold run
    rw [hco]
  rcases hsched with rfl | hmem
  · unfold runCore at hok ⊢
    have hpq : patchOracle oracle 0 σ' 0 = .optimal σ' := by simp [patchOracle]
    rw [hpq] at hok
    cases hop : optimize_period e ts eco P h r (SolveResult.optimal σ') 0 s0 d0
        emptyState with
    | mk st1 errOpt =>
      rw [hop] at hok
      cases errOpt with
      | some er => simp at hok
      | none =>
        obtain ⟨out, hb⟩ : ∃ out, buildWindow e ts eco P h r 0 s0 d0 = .ok out := by
          cases hb : buildWindow e ts eco P h r 0 s0 d0 with
          | error er =>
            unfold optimize_period at hop
            rw [hb] at hop
            simp at hop
          | ok out => exact ⟨out, rfl⟩
        obtain ⟨h2, htr, _⟩ :=
          optimize_period_bad e ts eco P h r (oracle 0) 0 s0 d0 emptyState out hbad hb
        cases hop2 : optimize_period e ts eco P h r (oracle 0) 0 s0 d0 emptyState with
        | mk st2 err2 =>
          rw [hop2] at h2 htr
          simp only [] at h2 htr
          subst h2
          refine ⟨rfl, ?_, ?_⟩
          · apply hrun
            unfold runCore
            rw [hop2]
          · intro pr hpr
            have hpr' : pr ∈ st2.trace_commits := hpr
            rw [htr] at hpr'
            simp [emptyState] at hpr'
  · have hp1 : 1 ≤ p := windowStarts_pos P r p hmem
    unfold runCore at hok ⊢
    have hpq : patchOracle oracle p σ' 0 = oracle 0 := by
      simp [patchOracle]
      omega
    rw [hpq] at hok
    cases hop : optimize_period e ts eco P h r (oracle 0) 0 s0 d0 emptyState with
    | mk st1 errOpt =>
      rw [hop] at hok
      cases errOpt with
      | some er => simp at hok
      | none =>
        obtain ⟨hres, htrace⟩ := runGo_infeasible e ts eco P h r oracle p σ' hbad
          (windowStarts P r) st1 hmem (windowStarts_pairwise P r hr) hok
        refine ⟨hres, ?_, ?_⟩
        · apply hrun
          unfold runCore
          rw [hop]
          exact Prod.ext_iff.mpr ⟨rfl, hres⟩
        · intro pr hpr
          have hpr' : pr ∈ (runGo e ts eco P h r oracle (windowStarts P r)
              st1).1.trace_commits := hpr
          rcases htrace pr hpr' with hin | hlt
          · rcases optimize_period_none e ts eco P h r (oracle 0) 0 s0 d0 emptyState
                st1 hop pr hin with hin2 | hfst
            · simp [emptyState] at hin2
            · omega
          · omega

/-- C7 witness: patching window 3 of `oracleA3` back to optimal recovers the
feasible `econA` run, and with `oracleA3` (infeasible at window 3) the run
aborts with `InfeasibleProblem 3`. -/
theorem run_infeasible_witness :
    (runCore econA (modelledTargetsSrc targetsA) none 4 2 2 oracleA3 [0] 0).2 =
      some (.infeasibleProblem 3) ∧
    run econA (modelledTargetsSrc targetsA) none 4 2 2 oracleA3 [0] 0 =
      .error (.infeasibleProblem 3) := by
  obtain ⟨h1, h2, _⟩ := run_infeasible_aborts econA (modelledTargetsSrc targetsA) none
    4 2 2 oracleA3 [0] 0 3 zeroAssign (by norm_num) (Or.inl rfl)
    (Or.inr (by decide))
    (by
      norm_num [runCore, runGo, optimize_period, buildWindow,
        production_constraints, prodLoop, prodStep, export_constraints,
        expLoop, labor_realloc_constraint, laborLow, laborUp, ecoConstraints, cost,
        costLoop, save_plan_period, saveLoop, saveStep, windowStarts, pyRange,
        pyRangeAux, pyGet, emptyState, modelledTargetsSrc, Economy.products,
        Economy.sectors, Bind.bind, Except.bind, Except.map, Except.pure, pure,
        List.getElem?_cons_zero, List.getElem?_cons_succ, List.getElem?_nil,
        dotV, matVec, vAdd, vSub, vHad, matSub, vNonneg, vLe,
        econA, targetsA, oracleA, oracleA3, patchOracle, sigmaA0, zeroAssign])
  exact ⟨h1, h2⟩

end Cybersyn
